import Mathlib

/-!
Verification development for the cognitive scheduling core of the
"engram" memory/reasoning system.

The definitions below are shallow embeddings of the Python source:
Python floats are modelled as rationals (`ℚ`), wall-clock time is an
explicit `ℚ` parameter (every call of `time.time()` becomes a `now`
argument), Python dicts that preserve insertion order are modelled as
association lists, and `None`-returning functions return `Option`.
Python `list.sort` / `sorted` are stable sorts; they are modelled with
`List.insertionSort`, which is also stable, so the results agree for
every total preorder.

Source files embedded here:
  - core/seeking_drive.py       (SeekingDrive)
  - core/truth_guard.py         (TruthGuard.calculate_risk)
  - core/internal_economy.py    (InternalMarket.run_auction and helpers)
  - reasoning/heartbeat.py      (Heartbeat._tick phase order)
  - reasoning/reconsolidation.py (ReconsolidationEngine.evaluate_and_modify)
  - reasoning/awake_engine.py   (AwakeEngine._think queue discipline)
  - reasoning/working_memory.py (WorkingMemory.update / _insert)
-/

/-! ## SeekingDrive (core/seeking_drive.py) -/

/-- State of `SeekingDrive` (the fields read or written by
`mint_currency` and `evaluate_proposal`). -/
structure SeekingDrive where
  seeking_level : ℚ
  base_mint_rate : ℚ
  target_level : ℚ
  decay_rate : ℚ
deriving DecidableEq

namespace SeekingDrive

/-- `SeekingDrive.mint_currency(dt)` from core/seeking_drive.py lines 48-66.
Decays `target_level` (floored at 0.3), interpolates `seeking_level`
toward it, then mints `base_mint_rate * level^2 * 5 * dt`.
Returns the updated drive and the minted amount. -/
def mint_currency (d : SeekingDrive) (dt : ℚ) : SeekingDrive × ℚ :=
  -- self.target_level = self.target_level * (1 - self.decay_rate * dt)
  -- if self.target_level < 0.3: self.target_level = 0.3
  let target1 := d.target_level * (1 - d.decay_rate * dt)
  let target2 := if target1 < 3/10 then 3/10 else target1
  -- diff = self.target_level - self.seeking_level
  -- self.seeking_level += diff * min(1.0, dt * 0.5)
  let diff := target2 - d.seeking_level
  let level := d.seeking_level + diff * min 1 (dt * (1/2))
  -- multiplier = math.pow(self.seeking_level, 2) * 5
  -- amount = self.base_mint_rate * multiplier * dt
  let multiplier := level ^ 2 * 5
  let amount := d.base_mint_rate * multiplier * dt
  ({ d with target_level := target2, seeking_level := level }, amount)

/-- `SeekingDrive.evaluate_proposal(cost, utility)` from
core/seeking_drive.py lines 68-89. -/
def evaluate_proposal (d : SeekingDrive) (cost utility : ℚ) : Bool :=
  if cost ≤ 0 then true
  else
    -- roi = utility / cost; min_roi = 2.0 - (self.seeking_level * 1.5)
    let roi := utility / cost
    let min_roi := 2 - d.seeking_level * (3/2)
    decide (min_roi ≤ roi)

end SeekingDrive

/-! ## TruthGuard (core/truth_guard.py) -/

/-- The per-engram fields read by `TruthGuard.calculate_risk`:
`quality_score`, `decay_score` and the optional cached attribute
`_embedding_cache_sim` (absent attribute modelled as `none`). -/
structure RiskInput where
  quality_score : ℚ
  decay_score : ℚ
  embedding_cache_sim : Option ℚ
deriving DecidableEq

namespace TruthGuard

/-- `getattr(a, '_embedding_cache_sim', 0.65)`. -/
def simOrDefault (a : RiskInput) : ℚ := a.embedding_cache_sim.getD (13/20)

/-- `TruthGuard.calculate_risk` from core/truth_guard.py lines 13-30.
Returns `(risk, is_safe)`. -/
def calculate_risk (retrieved : List RiskInput) : ℚ × Bool :=
  if retrieved = [] then (1, false)
  else
    let n : ℚ := retrieved.length
    let avg_quality := (retrieved.map (·.quality_score)).sum / n
    let avg_decay := (retrieved.map (·.decay_score)).sum / n
    let avg_sim := (retrieved.map simOrDefault).sum / n
    let risk := 45/100 * (1 - avg_sim) + 35/100 * (1 - avg_quality)
        + 20/100 * avg_decay
    (min risk 1, decide (risk < 45/100))

/-- The risk formula exactly as the specification states it (no cap):
`risk = 0.45·(1 − avg_sim) + 0.35·(1 − avg_quality) + 0.20·avg_decay`.
This definition follows the words of the spec and is compared against
`calculate_risk`, which is translated from the source. -/
def specRiskFormula (retrieved : List RiskInput) : ℚ :=
  let n : ℚ := retrieved.length
  let avg_quality := (retrieved.map (·.quality_score)).sum / n
  let avg_decay := (retrieved.map (·.decay_score)).sum / n
  let avg_sim := (retrieved.map simOrDefault).sum / n
  45/100 * (1 - avg_sim) + 35/100 * (1 - avg_quality) + 20/100 * avg_decay

end TruthGuard

/-! ## InternalMarket (core/internal_economy.py)

`self.wallets : Dict[str, float]` is modelled as an insertion-ordered
association list.  `time.time()` becomes the explicit argument `now`. -/

/-- `PowerLease` dataclass (core/internal_economy.py lines 11-21). -/
structure PowerLease where
  agent_id : String
  start_time : ℚ
  duration : ℚ
  cost : ℚ
deriving DecidableEq

/-- `PowerLease.end_time` property. -/
def PowerLease.end_time (l : PowerLease) : ℚ := l.start_time + l.duration

/-- `Bid` dataclass (core/internal_economy.py lines 23-29). -/
structure Bid where
  agent_id : String
  resource : String
  amount : ℚ := 0
  value : ℚ := 0
  exclusive : Bool := false
deriving DecidableEq

/-- `GrantRequest` dataclass (core/internal_economy.py lines 31-36). -/
structure GrantRequest where
  agent_id : String
  amount : ℚ
  utility : ℚ
  reason : String
deriving DecidableEq

/-- One `{"winner": ..., "amount": ..., "cost": ...}` entry of the
auction result. -/
structure Allocation where
  winner : String
  amount : ℚ
  cost : ℚ
deriving DecidableEq

/-- Return value of `run_auction`: either the lease-holder
acknowledgement `{"POWER_LEASE": {"winner": ..., "amount": 0}}` or a
dict `{resource: [allocation, ...]}`. -/
inductive AuctionResult where
  | leaseHold (winner : String) (amount : ℚ)
  | allocations (m : List (String × List Allocation))
deriving DecidableEq

/-- Mutable state of `InternalMarket` (the fields read or written by
`run_auction`).  The Python object holds `self.drive` (a
`SeekingDrive`); it is embedded here so that state updates stay pure. -/
structure InternalMarket where
  drive : SeekingDrive
  wallets : List (String × ℚ)
  power_lease : Option PowerLease
  energy_level : ℚ
  recharge_rate : ℚ
  drain_rate_base : ℚ
  last_tick : ℚ
  pending_grants : List GrantRequest
deriving DecidableEq

namespace InternalMarket

/-- `self.wallets.get(a, 0.0)`. -/
def walletGet (w : List (String × ℚ)) (a : String) : ℚ :=
  ((w.find? (fun p => p.1 == a)).map (·.2)).getD 0

/-- `a in self.wallets` (dict key membership). -/
def hasWallet (w : List (String × ℚ)) (a : String) : Bool :=
  w.any (fun p => p.1 == a)

/-- `self.wallets[a] += x` for a registered agent `a`. -/
def walletAdd (w : List (String × ℚ)) (a : String) (x : ℚ) : List (String × ℚ) :=
  w.map (fun p => if p.1 == a then (p.1, p.2 + x) else p)

/-- Phase 0 of `run_auction` (lines 135-139): ephemeral budgeting —
`for agent in self.wallets: self.wallets[agent] = 0.0`. -/
def ephemeralReset (w : List (String × ℚ)) : List (String × ℚ) :=
  w.map (fun p => (p.1, 0))

/-- Phase 1 of `run_auction` (lines 141-147): UBI grant — if any agent
is registered, each receives `new_credits / len(self.wallets)`. -/
def ubiGrant (w : List (String × ℚ)) (new_credits : ℚ) : List (String × ℚ) :=
  if w = [] then w
  else
    let grant := new_credits / (w.length : ℚ)
    w.map (fun p => (p.1, p.2 + grant))

/-- Phase 1.5 of `run_auction` (lines 149-160): innovation proposals.
Each pending grant approved by `evaluate_proposal` is credited to the
proposer when registered; the queue is cleared by the caller. -/
def processGrants (d : SeekingDrive) (w : List (String × ℚ))
    (gs : List GrantRequest) : List (String × ℚ) :=
  gs.foldl
    (fun acc req =>
      if d.evaluate_proposal req.amount req.utility && hasWallet acc req.agent_id
      then walletAdd acc req.agent_id req.amount
      else acc)
    w

/-- `max(high_bids, key=lambda b: b.value)`: Python `max` keeps the
first element whose key is maximal. -/
def pyMaxByValue : List Bid → Option Bid
  | [] => none
  | x :: xs => some (xs.foldl (fun m y => if m.value < y.value then y else m) x)

/-- The `available` resource pool of one standard-auction tick. -/
structure Available where
  compute_rpm : ℚ
  memory_slot : ℚ
  power_lease : ℚ
deriving DecidableEq

/-- `available.get(res, 0)`. -/
def Available.get (av : Available) (res : String) : ℚ :=
  if res = "COMPUTE_RPM" then av.compute_rpm
  else if res = "MEMORY_SLOT" then av.memory_slot
  else if res = "POWER_LEASE" then av.power_lease
  else 0

/-- `results[res].append(alloc)` with dict insertion order. -/
def resultsAppend (rs : List (String × List Allocation)) (res : String)
    (alloc : Allocation) : List (String × List Allocation) :=
  if rs.any (fun p => p.1 == res)
  then rs.map (fun p => if p.1 == res then (p.1, p.2 ++ [alloc]) else p)
  else rs ++ [(res, [alloc])]

/-- `results.get(res, [])`. -/
def resultsGet (rs : List (String × List Allocation)) (res : String) :
    List Allocation :=
  ((rs.find? (fun p => p.1 == res)).map (·.2)).getD []

/-- Loop state of `_process_standard_auction`. -/
structure StdAuctionSt where
  wallets : List (String × ℚ)
  power_lease : Option PowerLease
  available : Available
  results : List (String × List Allocation)
deriving DecidableEq

/-- The body of the bid loop in `_process_standard_auction`
(core/internal_economy.py lines 225-266). -/
def stdBidStep (multiplier now : ℚ) (st : StdAuctionSt) (bid : Bid) :
    StdAuctionSt :=
  if bid.value ≤ 0 ∨ bid.amount ≤ 0 then st
  else
    let cost := bid.value * multiplier
    if st.available.get bid.resource ≤ 0 then st
    else if walletGet st.wallets bid.agent_id < cost then st
    else
      let wallets := walletAdd st.wallets bid.agent_id (-cost)
      let results := resultsAppend st.results bid.resource
        ⟨bid.agent_id, bid.amount, cost⟩
      if bid.resource = "POWER_LEASE" then
        -- self.power_lease = self.power_lease or PowerLease(...)
        let lease := st.power_lease.getD ⟨bid.agent_id, now, bid.amount, cost⟩
        { wallets, results,
          power_lease := some lease,
          available := { st.available with power_lease := 0, compute_rpm := 0 } }
      else if bid.resource = "COMPUTE_RPM" then
        let allocated := min st.available.compute_rpm bid.amount
        { wallets, results, power_lease := st.power_lease,
          available := { st.available with
            compute_rpm := st.available.compute_rpm - allocated } }
      else if bid.resource = "MEMORY_SLOT" then
        { wallets, results, power_lease := st.power_lease,
          available := { st.available with
            memory_slot := st.available.memory_slot - 1 } }
      else
        { wallets, results, power_lease := st.power_lease,
          available := st.available }

/-- `InternalMarket._process_standard_auction` (lines 211-282), plus the
post-allocation metabolic update.  `bids.sort(key=..., reverse=True)` is
a stable descending sort, modelled with `List.insertionSort` on
`b.value ≤ a.value`. -/
def processStandardAuction (m : InternalMarket) (bids : List Bid)
    (multiplier now dt : ℚ) : InternalMarket × AuctionResult :=
  let sorted := bids.insertionSort (fun a b => b.value ≤ a.value)
  let st0 : StdAuctionSt :=
    { wallets := m.wallets, power_lease := m.power_lease,
      available := { compute_rpm := 60, memory_slot := 1, power_lease := 1 },
      results := [] }
  let st := sorted.foldl (stdBidStep multiplier now) st0
  -- === 5. Metabolic Update (Post-Allocation) ===
  let total_rpm := ((resultsGet st.results "COMPUTE_RPM").map (·.amount)).sum
  let is_busy := 15 < total_rpm ∨ st.power_lease ≠ none
  let energy :=
    if is_busy then
      let drain := m.drain_rate_base * dt * (if st.power_lease ≠ none then 3 else 1)
      max 0 (m.energy_level - drain)
    else
      min 100 (m.energy_level + m.recharge_rate * dt)
  ({ m with wallets := st.wallets, power_lease := st.power_lease,
            energy_level := energy },
   .allocations st.results)

/-- `InternalMarket.run_auction` (core/internal_economy.py lines
126-209). -/
def run_auction (m : InternalMarket) (bids : List Bid) (now : ℚ) :
    InternalMarket × AuctionResult :=
  let dt := now - m.last_tick
  -- === 0. Ephemeral Budgeting ===
  let w0 := ephemeralReset m.wallets
  -- === 1. Mint New Grants ===
  let (drive, new_credits) := m.drive.mint_currency dt
  let w1 := ubiGrant w0 new_credits
  -- === 1.5 Process Innovation Proposals ===
  let w2 := processGrants drive w1 m.pending_grants
  let m1 : InternalMarket :=
    { m with drive, wallets := w2, last_tick := now, pending_grants := [] }
  -- === 2/3. Surge pricing (the duplicated low-battery block is idempotent) ===
  let multiplier : ℚ := if m1.energy_level < 20 then 10 else 1
  -- === 3. Check Active Lease ===
  match m1.power_lease with
  | some lease =>
    if now < lease.end_time then
      let interrupt_threshold := lease.cost * 50
      let high_bids := bids.filter (fun b => interrupt_threshold < b.value)
      match pyMaxByValue high_bids with
      | none => (m1, .leaseHold lease.agent_id 0)
      | some winner =>
        -- Interrupt!  The lease is cleared and the auction short-circuits.
        -- `pay = winner.value` is computed but the wallet is NOT debited.
        let pay := winner.value
        ({ m1 with power_lease := none },
         .allocations [(winner.resource, [⟨winner.agent_id, winner.amount, pay⟩])])
    else
      -- Expired lease
      processStandardAuction { m1 with power_lease := none } bids multiplier now dt
  | none => processStandardAuction m1 bids multiplier now dt

end InternalMarket

/-! ## Heartbeat (reasoning/heartbeat.py)

`Heartbeat._tick` is modelled as a state transformer that also emits the
ordered trace of its phases.  Only the metrics that the tick itself
reads back (`tick`, `errors_total`) are kept in the snapshot; the other
snapshot fields are filled from external components and do not influence
control flow or ordering.  `_metacognitive_adjust` mutates the external
awake engine only, so it contributes an event but no modelled state
change; likewise the listener callbacks and the market auction are
external calls. -/

/-- The observable phases of one `Heartbeat._tick`, in the order the
source executes them (reasoning/heartbeat.py lines 181-212). -/
inductive TickEvent where
  | collect
  | store
  | breaker
  | metacognition
  | listeners
  | auction
deriving DecidableEq

/-- The snapshot fields `_tick` itself reads back on later ticks. -/
structure BrainSnapshot where
  tick : Nat
  errors_total : Nat
deriving DecidableEq

/-- State of the `Heartbeat` singleton touched by `_tick`.  `hasMarket`
models whether `self.market` is set. -/
structure HeartbeatSt where
  tick_count : Nat
  history : List BrainSnapshot
  current : BrainSnapshot
  error_window : List Nat
  error_rate : ℚ
  halted : Bool
  hasMarket : Bool
deriving DecidableEq

/-- `deque(maxlen=n).append`: drop from the left when full. -/
def dequeAppend {α : Type} (maxlen : Nat) (l : List α) (x : α) : List α :=
  let l2 := l ++ [x]
  l2.drop (l2.length - maxlen)

/-- `Heartbeat._tick` (reasoning/heartbeat.py lines 181-212): executes
the phases in source order and returns the new state together with the
emitted phase trace.  `errorsNow` is the external metric feeding
`snap.errors_total`. -/
def heartbeatTick (st : HeartbeatSt) (errorsNow : Nat) :
    HeartbeatSt × List TickEvent :=
  let tc := st.tick_count + 1
  -- snapshot = self._collect_snapshot()
  let snap : BrainSnapshot := ⟨tc, errorsNow⟩
  let ev1 := [TickEvent.collect]
  -- self.history.append(snapshot); self.current = snapshot
  let hist := dequeAppend 300 st.history snap
  let ev2 := ev1 ++ [TickEvent.store]
  -- self._check_circuit_breaker(snapshot)
  let prevErrors :=
    if 2 ≤ hist.length
    then ((hist.get? (hist.length - 2)).map (·.errors_total)).getD 0
    else 0
  let errorsThisTick := snap.errors_total - prevErrors
  let ew := dequeAppend 60 st.error_window errorsThisTick
  let rate : ℚ := (ew.sum : ℚ) / (max ew.length 1 : ℚ)
  let halted := st.halted || decide (5 < rate)
  let ev3 := ev2 ++ [TickEvent.breaker]
  -- self._metacognitive_adjust(snapshot): adjusts the awake engine only
  let ev4 := ev3 ++ [TickEvent.metacognition]
  -- for callback in self._listeners: callback(snapshot)
  let ev5 := ev4 ++ [TickEvent.listeners]
  -- if self.market: bids = self._collect_bids(); run_auction; distribute
  let ev6 := if st.hasMarket then ev5 ++ [TickEvent.auction] else ev5
  ({ st with tick_count := tc, history := hist, current := snap,
             error_window := ew, error_rate := rate, halted := halted },
   ev6)

/-- C3 counterexample: in the source `_tick`, the registered listeners
are notified BEFORE the market auction runs, not after.  At a concrete
initial state with a market set, the emitted trace places `listeners`
strictly before `auction`, so the claimed order
(… → auction → listeners) is false. -/
theorem heartbeat_tick_listeners_before_auction :
    ¬ (List.indexOf TickEvent.auction
        (heartbeatTick ⟨0, [], ⟨0, 0⟩, [], 0, false, true⟩ 0).2
      < List.indexOf TickEvent.listeners
        (heartbeatTick ⟨0, [], ⟨0, 0⟩, [], 0, false, true⟩ 0).2) ∧
    List.indexOf TickEvent.listeners
        (heartbeatTick ⟨0, [], ⟨0, 0⟩, [], 0, false, true⟩ 0).2
      < List.indexOf TickEvent.auction
        (heartbeatTick ⟨0, [], ⟨0, 0⟩, [], 0, false, true⟩ 0).2 := by
  have h : (heartbeatTick ⟨0, [], ⟨0, 0⟩, [], 0, false, true⟩ 0).2
      = [TickEvent.collect, TickEvent.store, TickEvent.breaker,
         TickEvent.metacognition, TickEvent.listeners, TickEvent.auction] := by
    norm_num [heartbeatTick, dequeAppend]
  rw [h]
  constructor
  · decide
  · decide

/-- C3 (amended): within every Heartbeat tick with a market set, the
phases run in exactly this order: collect the snapshot, store it in the
ring buffer, run the circuit breaker, run metacognitive feedback, notify
the registered listeners with the snapshot, and only then run the market
auction (collect bids, auction, distribute allocations). -/
theorem heartbeat_tick_order (st : HeartbeatSt) (errorsNow : Nat)
    (h : st.hasMarket = true) :
    (heartbeatTick st errorsNow).2
      = [TickEvent.collect, TickEvent.store, TickEvent.breaker,
         TickEvent.metacognition, TickEvent.listeners, TickEvent.auction] := by
  unfold heartbeatTick
  simp [h]

/-- Witness for `heartbeat_tick_order` at a concrete state. -/
theorem heartbeat_tick_order_witness :
    (⟨0, [], ⟨0, 0⟩, [], 0, false, true⟩ : HeartbeatSt).hasMarket = true ∧
    (heartbeatTick ⟨0, [], ⟨0, 0⟩, [], 0, false, true⟩ 0).2
      = [TickEvent.collect, TickEvent.store, TickEvent.breaker,
         TickEvent.metacognition, TickEvent.listeners, TickEvent.auction] :=
  ⟨rfl, heartbeat_tick_order _ 0 rfl⟩

/-! ## ReconsolidationEngine (reasoning/reconsolidation.py) -/

/-- `ReconsolidationWindow` dataclass (reasoning/reconsolidation.py
lines 14-32).  The `modifications` log of stringified dicts is kept as
its length. -/
structure ReconsolidationWindow where
  engram_id : String
  query_context : String
  opened_at : ℚ
  window_duration : ℚ := 30
  modifications : Nat := 0
  closed : Bool := false
  strengthened : Bool := false
  weakened : Bool := false
deriving DecidableEq

/-- `ReconsolidationWindow.is_open` property:
`not self.closed and (time.time() - self.opened_at) < self.window_duration`. -/
def ReconsolidationWindow.is_open (now : ℚ) (w : ReconsolidationWindow) : Bool :=
  !w.closed && decide (now - w.opened_at < w.window_duration)

/-- The engram fields read by `evaluate_and_modify`. -/
structure EngramScores where
  id : String
  quality_score : ℚ
  consistency_score : ℚ
  decay_score : ℚ
deriving DecidableEq

/-- The dict of modifications returned by `evaluate_and_modify`; absent
keys are `none` / `false`. -/
structure Modifications where
  quality_score : Option ℚ := none
  consistency_score : Option ℚ := none
  decay_score : Option ℚ := none
  needs_refinement : Bool := false
  refinement_context : Option String := none
deriving DecidableEq

/-- State of `ReconsolidationEngine` (lines 54-65). -/
structure ReconsolidationEngine where
  active_windows : List (String × ReconsolidationWindow)
  window_duration : ℚ := 30
  total_opened : Nat := 0
  total_strengthened : Nat := 0
  total_updated : Nat := 0
  total_weakened : Nat := 0
deriving DecidableEq

/-- Replace the first element satisfying `p` (in-place mutation of the
object found in a Python list / dict value). -/
def updateFirst {α : Type} (p : α → Bool) (f : α → α) : List α → List α
  | [] => []
  | x :: xs => if p x then f x :: xs else x :: updateFirst p f xs

namespace ReconsolidationEngine

/-- `self.active_windows.get(engram.id)`. -/
def lookupWindow (eng : ReconsolidationEngine) (id : String) :
    Option ReconsolidationWindow :=
  ((eng.active_windows.find? (fun p => p.1 == id)).map (·.2))

/-- Mutate the window object stored under `id`. -/
def setWindow (eng : ReconsolidationEngine) (id : String)
    (f : ReconsolidationWindow → ReconsolidationWindow) :
    List (String × ReconsolidationWindow) :=
  updateFirst (fun p => p.1 == id) (fun p => (p.1, f p.2)) eng.active_windows

/-- The weaken update of `quality_score`:
`max(0.1, quality_score - min(0.1, prediction_error * 0.05))`
(reasoning/reconsolidation.py lines 119-120). -/
def weakenStep (prediction_error q : ℚ) : ℚ :=
  max (1/10) (q - min (1/10) (prediction_error * (5/100)))

/-- `ReconsolidationEngine.evaluate_and_modify` (lines 91-138).
Returns the updated engine state and the modification dict (`none` when
no window is open or no branch fires). -/
def evaluate_and_modify (eng : ReconsolidationEngine) (e : EngramScores)
    (query : String) (response_quality prediction_error now : ℚ) :
    ReconsolidationEngine × Option Modifications :=
  match eng.lookupWindow e.id with
  | none => (eng, none)
  | some w =>
    if ¬ w.is_open now then (eng, none)
    else if 7/10 < response_quality ∧ prediction_error < 3/10 then
      -- === STRENGTHEN ===
      let quality_boost := min (5/100) (response_quality * (2/100))
      let mods : Modifications :=
        { quality_score := some (min 1 (e.quality_score + quality_boost)),
          consistency_score := some (min 1 (e.consistency_score + 1/100)) }
      ({ eng with
          active_windows := eng.setWindow e.id
            (fun w => { w with strengthened := true,
                               modifications := w.modifications + 1 }),
          total_strengthened := eng.total_strengthened + 1 },
       some mods)
    else if 7/10 < prediction_error then
      -- === WEAKEN ===
      let mods : Modifications :=
        { quality_score := some (weakenStep prediction_error e.quality_score),
          decay_score := some (min 1 (e.decay_score + 5/100)) }
      ({ eng with
          active_windows := eng.setWindow e.id
            (fun w => { w with weakened := true,
                               modifications := w.modifications + 1 }),
          total_weakened := eng.total_weakened + 1 },
       some mods)
    else if 3/10 < prediction_error then
      -- === UPDATE ===
      let mods : Modifications :=
        { needs_refinement := true, refinement_context := some query }
      ({ eng with
          active_windows := eng.setWindow e.id
            (fun w => { w with modifications := w.modifications + 1 }),
          total_updated := eng.total_updated + 1 },
       some mods)
    else
      (eng, none)

end ReconsolidationEngine

/-! ## AwakeEngine queue discipline (reasoning/awake_engine.py)

`_think` (lines 253-304) and `_focused_reasoning` (lines 306-329) both
sort the shared workload queue by the aging urgency score inside the
critical section and then `pop(0)`.  Only the queue discipline is
modelled; the LLM refinement that follows the pop is an external call. -/

/-- Engine modes (the ones `_think` can switch to). -/
inductive EngineMode where
  | idle
  | thinking
  | focused
deriving DecidableEq

/-- The fields of a queued abstraction read by `_think`:
`quality_score`, `created_at.timestamp()` and `consistency_score`. -/
structure QueueItem where
  id : String
  quality_score : ℚ
  created_at : ℚ
  consistency_score : ℚ
deriving DecidableEq

namespace AwakeEngine

/-- The aging urgency score used as the sort key (awake_engine.py line
266): `quality_score + (now - created_at) / 600`, i.e.
`quality_score + age_minutes / 10`. -/
def urgency (now : ℚ) (x : QueueItem) : ℚ :=
  x.quality_score + (now - x.created_at) / 600

/-- `self.workload_queue.sort(key=urgency, reverse=True)`: a stable
descending sort, modelled with `List.insertionSort` (also stable). -/
def sortQueue (now : ℚ) (q : List QueueItem) : List QueueItem :=
  q.insertionSort (fun a b => urgency now b ≤ urgency now a)

/-- Result of the queue part of one `_think` step. -/
structure ThinkStep where
  popped : Option QueueItem
  queue : List QueueItem
  mode : EngineMode
deriving DecidableEq

/-- The critical section of `AwakeEngine._think` (lines 253-279): if the
queue is empty switch to IDLE; otherwise sort by urgency descending,
pop the head, and either push it back and escalate to FOCUSED (when its
`consistency_score` is below the escalation threshold) or keep it for
refinement. -/
def think (now escalation_threshold : ℚ) (q : List QueueItem) : ThinkStep :=
  if q = [] then { popped := none, queue := [], mode := EngineMode.idle }
  else
    match sortQueue now q with
    | [] =>
      -- unreachable: sorting preserves length, so the sorted queue is
      -- nonempty whenever q is
      { popped := none, queue := [], mode := EngineMode.idle }
    | x :: rest =>
      if x.consistency_score < escalation_threshold then
        -- workload_queue.insert(0, abs_obj); switch to FOCUSED
        { popped := none, queue := x :: rest, mode := EngineMode.focused }
      else
        { popped := some x, queue := rest, mode := EngineMode.thinking }

end AwakeEngine

/-! ## WorkingMemory (reasoning/working_memory.py) -/

/-- `MemoryItem` dataclass (reasoning/working_memory.py lines 18-27). -/
structure MemoryItem where
  engram_id : String
  content : String
  relevance : ℚ
  quality : ℚ
  added_at : ℚ
  access_count : Nat := 1
  source_query : String := ""
deriving DecidableEq

/-- `MemoryItem.priority` property (lines 29-38):
`relevance·0.4 + quality·0.3 + recency·0.2 + min(access/10, 1)·0.1`
with `recency = max(0, 1 − age/300)`. -/
def MemoryItem.priority (now : ℚ) (it : MemoryItem) : ℚ :=
  let recency := max 0 (1 - (now - it.added_at) / 300)
  it.relevance * (4/10) + it.quality * (3/10) + recency * (2/10)
    + min ((it.access_count : ℚ) / 10) 1 * (1/10)

/-- The fields of a retrieved engram read by `WorkingMemory.update`:
`id`, `content`, `quality_score` and the optional attribute
`_rerank_score` (absent attribute modelled as `none`). -/
structure RetrievedEngram where
  id : String
  content : String
  quality_score : ℚ
  rerank_score : Option ℚ
deriving DecidableEq

/-- State of `WorkingMemory` (lines 51-58). -/
structure WorkingMemory where
  capacity : Nat := 7
  items : List MemoryItem := []
  total_insertions : Nat := 0
  total_evictions : Nat := 0
  total_accesses : Nat := 0
deriving DecidableEq

namespace WorkingMemory

/-- Python `min(l, key=f)` over the nonempty list `x :: l`: the first
element with minimal key. -/
def pyMinBy (f : MemoryItem → ℚ) (x : MemoryItem) (l : List MemoryItem) :
    MemoryItem :=
  l.foldl (fun m y => if f y < f m then y else m) x

/-- `WorkingMemory._insert` (lines 133-144): insert, evicting the
lowest-priority item when full.  Python `list.remove` deletes the first
occurrence, which `List.erase` matches. -/
def insertItem (now : ℚ) (wm : WorkingMemory) (item : MemoryItem) :
    WorkingMemory :=
  if wm.capacity ≤ wm.items.length then
    match wm.items with
    | [] =>
      -- Python would raise ValueError on min([]) here (reachable only
      -- with capacity 0); the state is left unchanged by the raise
      wm
    | x :: xs =>
      let lowest := pyMinBy (MemoryItem.priority now) x xs
      { wm with items := ((x :: xs).erase lowest) ++ [item],
                total_evictions := wm.total_evictions + 1,
                total_insertions := wm.total_insertions + 1 }
  else
    { wm with items := wm.items ++ [item],
              total_insertions := wm.total_insertions + 1 }

/-- `WorkingMemory._find` (lines 146-151). -/
def find (wm : WorkingMemory) (engram_id : String) : Option MemoryItem :=
  wm.items.find? (fun it => it.engram_id == engram_id)

/-- One iteration of the loop in `WorkingMemory.update` (lines 73-100).
The accumulator carries the state and the `new_items` list. -/
def updateOne (now : ℚ) (query : String) (min_relevance : ℚ)
    (acc : WorkingMemory × List MemoryItem) (engram : RetrievedEngram) :
    WorkingMemory × List MemoryItem :=
  match acc with
  | (wm, new_items) =>
    match wm.find engram.id with
    | some _ =>
      -- existing.access_count += 1
      -- existing.relevance = max(existing.relevance,
      --                          getattr(engram, '_rerank_score', 0.5))
      ({ wm with
          items := updateFirst (fun it => it.engram_id == engram.id)
            (fun it =>
              { it with access_count := it.access_count + 1,
                        relevance := max it.relevance
                          (engram.rerank_score.getD (1/2)) })
            wm.items,
          total_accesses := wm.total_accesses + 1 },
       new_items)
    | none =>
      -- rerank = getattr(engram, '_rerank_score', 0.0)
      -- relevance = max(0, min(1.0, (rerank + 5) / 10))
      let rerank := engram.rerank_score.getD 0
      let relevance := max 0 (min 1 ((rerank + 5) / 10))
      if relevance < min_relevance ∧ engram.quality_score < 3/5 then
        (wm, new_items)
      else
        let item : MemoryItem :=
          { engram_id := engram.id, content := engram.content.take 200,
            relevance := relevance, quality := engram.quality_score,
            added_at := now, access_count := 1, source_query := query }
        (insertItem now wm item, new_items ++ [item])

/-- `WorkingMemory.update` (lines 60-102). -/
def update (now : ℚ) (query : String) (min_relevance : ℚ)
    (wm : WorkingMemory) (retrieved : List RetrievedEngram) :
    WorkingMemory × List MemoryItem :=
  retrieved.foldl (updateOne now query min_relevance) (wm, [])

/-- `WorkingMemory.prime` (lines 117-127): boost an item when present. -/
def prime (now : ℚ) (wm : WorkingMemory) (engram_id : String) :
    WorkingMemory :=
  { wm with
      items :=
        updateFirst (fun it => it.engram_id == engram_id)
          (fun it => { it with relevance := 1,
                               access_count := it.access_count + 3,
                               added_at := now })
          wm.items }

/-- `WorkingMemory.clear` (lines 129-131). -/
def clear (wm : WorkingMemory) : WorkingMemory := { wm with items := [] }

/-- The mutating operations a client can run against a `WorkingMemory`. -/
inductive Op where
  | update (now : ℚ) (query : String) (min_relevance : ℚ)
      (retrieved : List RetrievedEngram)
  | prime (now : ℚ) (engram_id : String)
  | clear

/-- Run one operation. -/
def step (wm : WorkingMemory) : Op → WorkingMemory
  | Op.update now q mr rs => (update now q mr wm rs).1
  | Op.prime now engram_id => prime now wm engram_id
  | Op.clear => clear wm

/-- Run a sequence of operations. -/
def run (wm : WorkingMemory) (ops : List Op) : WorkingMemory :=
  ops.foldl step wm

/-- `WorkingMemory(capacity)`: the freshly constructed empty buffer. -/
def emptyWM (capacity : Nat) : WorkingMemory := { capacity := capacity }

end WorkingMemory

/-- Concrete fixture: a market with two registered agents and no active
lease. -/
def marketTwoAgents : InternalMarket :=
  { drive := ⟨1/2, 100, 1/2, 1/20⟩, wallets := [("A", 100), ("B", 100)],
    power_lease := none, energy_level := 100, recharge_rate := 10,
    drain_rate_base := 2, last_tick := 0, pending_grants := [] }

/-- Concrete fixture: a working-memory item for engram `e1` with
relevance 0.2. -/
def wmExistingItem : MemoryItem :=
  { engram_id := "e1", content := "c", relevance := 1/5, quality := 1/2,
    added_at := 0, access_count := 1, source_query := "q0" }

/-- Concrete fixture: a buffer holding exactly `wmExistingItem`. -/
def wmBuffer0 : WorkingMemory := { capacity := 7, items := [wmExistingItem] }

/-- Concrete fixture: engram `e1` retrieved again, carrying the raw
cross-encoder rerank score 3 (logits range about −10..10). -/
def retrievedAgain : RetrievedEngram :=
  { id := "e1", content := "c", quality_score := 1/2,
    rerank_score := some 3 }

/-- Concrete fixture: the aged low-quality queue item of the spec
scenario (quality 0.1, created at time 0, i.e. 60 minutes old at time
3600). -/
def agedItem : QueueItem :=
  { id := "old", quality_score := 1/10, created_at := 0,
    consistency_score := 1 }

/-- Concrete fixture: the fresh queue item of the spec scenario
(quality 0.5, created at time 3600). -/
def freshItem : QueueItem :=
  { id := "new", quality_score := 1/2, created_at := 3600,
    consistency_score := 1 }

/-- Concrete fixture: a window for engram `e1` opened at time 0. -/
def reconWindow0 : ReconsolidationWindow :=
  { engram_id := "e1", query_context := "q0", opened_at := 0 }

/-- Concrete fixture: an engine with exactly the window `reconWindow0`. -/
def reconEngine0 : ReconsolidationEngine :=
  { active_windows := [("e1", reconWindow0)] }

/-- Concrete fixture: the engram of the spec strengthen scenario
(quality 0.50, consistency 0.60, decay 0.10). -/
def reconEngram0 : EngramScores :=
  { id := "e1", quality_score := 1/2, consistency_score := 3/5,
    decay_score := 1/10 }

/-! ## Theorems for SeekingDrive and TruthGuard -/

/-- C7: `mint_currency(dt)` first decays `target_level` toward its 0.3
floor at `decay_rate` (multiplicative decay, clamped below at 0.3, so
the new target is `max 0.3 (target·(1 − decay_rate·dt))` and is always
at least 0.3), then moves `seeking_level` toward the target by the
fraction `min 1 (dt·0.5)` of the gap, and returns exactly
`base_mint_rate · level² · 5 · dt` computed with the updated level. -/
theorem mint_currency_spec (d : SeekingDrive) (dt : ℚ) :
    (d.mint_currency dt).1.target_level
        = max (3/10) (d.target_level * (1 - d.decay_rate * dt)) ∧
    3/10 ≤ (d.mint_currency dt).1.target_level ∧
    (d.mint_currency dt).1.seeking_level
        = d.seeking_level
          + ((d.mint_currency dt).1.target_level - d.seeking_level)
            * min 1 (dt * (1/2)) ∧
    (d.mint_currency dt).2
        = d.base_mint_rate * ((d.mint_currency dt).1.seeking_level) ^ 2 * 5 * dt := by
  unfold SeekingDrive.mint_currency
  refine ⟨?_, ?_, rfl, by ring⟩
  · dsimp only
    rcases lt_or_le (d.target_level * (1 - d.decay_rate * dt)) (3/10) with h | h
    · rw [if_pos h, max_eq_left h.le]
    · rw [if_neg (not_lt.mpr h), max_eq_right h]
  · dsimp only
    rcases lt_or_le (d.target_level * (1 - d.decay_rate * dt)) (3/10) with h | h
    · rw [if_pos h]
    · rw [if_neg (not_lt.mpr h)]; exact h

/-- C1: in every `run_auction` tick, the ephemeral-budgeting phase sets
every registered wallet to exactly 0 before any grant, and the UBI phase
then credits every registered wallet exactly `g / |agents|`, where `g`
is the amount returned by `SeekingDrive.mint_currency(dt)`.
(`run_auction` computes its wallets as
`ubiGrant (ephemeralReset m.wallets) g` before the later phases.) -/
theorem run_auction_reset_then_ubi (m : InternalMarket) (now : ℚ) :
    (∀ p ∈ InternalMarket.ephemeralReset m.wallets, p.2 = 0) ∧
    (∀ p ∈ InternalMarket.ubiGrant (InternalMarket.ephemeralReset m.wallets)
        ((m.drive.mint_currency (now - m.last_tick)).2),
      p.2 = (m.drive.mint_currency (now - m.last_tick)).2
              / (m.wallets.length : ℚ)) := by
  constructor
  · intro p hp
    simp only [InternalMarket.ephemeralReset, List.mem_map] at hp
    obtain ⟨q, _, rfl⟩ := hp
    rfl
  · intro p hp
    unfold InternalMarket.ubiGrant at hp
    by_cases h : InternalMarket.ephemeralReset m.wallets = []
    · rw [if_pos h, h] at hp
      exact absurd hp (List.not_mem_nil p)
    · rw [if_neg h] at hp
      simp only [List.mem_map] at hp
      obtain ⟨q, hq, rfl⟩ := hp
      simp only [InternalMarket.ephemeralReset, List.mem_map] at hq
      obtain ⟨r, _, rfl⟩ := hq
      simp [InternalMarket.ephemeralReset]

/-- C2: concrete evaluation of the interrupt branch.  Agent A holds a
lease of cost 20 (start 0, duration 120); agent B submits an interrupt
bid of value 1500 > 50·20 at time 1.  The lease is cleared and the
auction short-circuits to the single allocation for B — but B's wallet
is NOT debited: both wallets stay at the UBI grant `g/2 = 7605/128 ≥ 0`
(the source computes `pay = winner.value` and never subtracts it),
contradicting the claim that the winner is debited the bid's value and
may go negative. -/
theorem run_auction_interrupt_no_debit :
    (InternalMarket.run_auction
      { drive := ⟨1/2, 100, 1/2, 1/20⟩,
        wallets := [("A", 100), ("B", 100)],
        power_lease := some ⟨"A", 0, 120, 20⟩,
        energy_level := 100, recharge_rate := 10, drain_rate_base := 2,
        last_tick := 0, pending_grants := [] }
      [⟨"B", "COMPUTE_RPM", 10, 1500, false⟩] 1)
    = ({ drive := ⟨39/80, 100, 19/40, 1/20⟩,
         wallets := [("A", 7605/128), ("B", 7605/128)],
         power_lease := none,
         energy_level := 100, recharge_rate := 10, drain_rate_base := 2,
         last_tick := 1, pending_grants := [] },
       .allocations [("COMPUTE_RPM", [⟨"B", 10, 1500⟩])]) ∧
    (0 : ℚ) ≤ 7605/128 := by
  constructor
  · norm_num [InternalMarket.run_auction, InternalMarket.ephemeralReset,
      InternalMarket.ubiGrant, InternalMarket.processGrants,
      InternalMarket.pyMaxByValue, SeekingDrive.mint_currency,
      PowerLease.end_time, min_def]
    simp
  · norm_num

/-- C4 counterexample: the claim says `calculate_risk` returns exactly
`0.45·(1 − avg_sim) + 0.35·(1 − avg_quality) + 0.20·avg_decay`, but the
source returns `min(risk, 1.0)`.  For the single engram with
`quality_score = 0`, `decay_score = 1` and cached similarity `−1` the
formula evaluates to `1.45` while the function returns `1`. -/
theorem calculate_risk_not_formula :
    (TruthGuard.calculate_risk [⟨0, 1, some (-1)⟩]).1
      ≠ TruthGuard.specRiskFormula [⟨0, 1, some (-1)⟩] := by
  have hf : TruthGuard.specRiskFormula [⟨0, 1, some (-1)⟩] = 29/20 := by
    norm_num [TruthGuard.specRiskFormula, TruthGuard.simOrDefault]
  have hc : (TruthGuard.calculate_risk [⟨0, 1, some (-1)⟩]).1 = 1 := by
    norm_num [TruthGuard.calculate_risk, TruthGuard.simOrDefault]
  rw [hc, hf]
  norm_num

/-- C4 (amended): `calculate_risk` returns
`risk = min(0.45·(1 − avg_sim) + 0.35·(1 − avg_quality) + 0.20·avg_decay, 1.0)`
with `is_safe` true iff the uncapped formula is `< 0.45` (where `avg_sim`
averages the per-engram cached similarity with default `0.65`, and the
other averages are over `quality_score` and `decay_score`); and for the
empty list it returns `risk = 1.0` with `is_safe = false`. -/
theorem calculate_risk_spec (l : List RiskInput) (h : l ≠ []) :
    TruthGuard.calculate_risk [] = (1, false) ∧
    TruthGuard.calculate_risk l
      = (min (TruthGuard.specRiskFormula l) 1,
         decide (TruthGuard.specRiskFormula l < 45/100)) := by
  refine ⟨rfl, ?_⟩
  unfold TruthGuard.calculate_risk TruthGuard.specRiskFormula
  rw [if_neg h]

/-- Witness for `calculate_risk_spec`: the two-engram boundary scenario
of the spec (quality 0.15, decay 0.9, cached similarity 0.65); the risk
is 0.635 and the retrieval is unsafe. -/
theorem calculate_risk_spec_witness :
    ([(⟨3/20, 9/10, some (13/20)⟩ : RiskInput), ⟨3/20, 9/10, some (13/20)⟩] ≠ ([] : List RiskInput)) ∧
    (TruthGuard.calculate_risk [] = (1, false) ∧
     TruthGuard.calculate_risk [⟨3/20, 9/10, some (13/20)⟩, ⟨3/20, 9/10, some (13/20)⟩]
       = (min (TruthGuard.specRiskFormula [⟨3/20, 9/10, some (13/20)⟩, ⟨3/20, 9/10, some (13/20)⟩]) 1,
          decide (TruthGuard.specRiskFormula [⟨3/20, 9/10, some (13/20)⟩, ⟨3/20, 9/10, some (13/20)⟩] < 45/100))) :=
  ⟨by decide, calculate_risk_spec _ (by decide)⟩

/-! ## Theorems for ReconsolidationEngine -/

/-- `weakenStep` never goes below 0.1. -/
theorem weakenStep_floor (pe q : ℚ) :
    1/10 ≤ ReconsolidationEngine.weakenStep pe q :=
  le_max_left _ _

/-- Iterating `weakenStep` from any point at or above 0.1 stays at or
above 0.1. -/
theorem foldl_weakenStep_floor :
    ∀ (pes : List ℚ) (i : ℚ), 1/10 ≤ i →
      1/10 ≤ pes.foldl (fun q p => ReconsolidationEngine.weakenStep p q) i
  | [], _, hi => hi
  | _ :: ps, _, _ =>
    foldl_weakenStep_floor ps _ (weakenStep_floor _ _)

/-- C5: while an engram's reconsolidation window is open, calling
`evaluate_and_modify` with `response_quality > 0.7` and
`prediction_error < 0.3` returns modifications that set `quality_score`
to `min(1, old + min(0.05, response_quality·0.02))`, set
`consistency_score` to `min(1, old + 0.01)`, and increment the
`total_strengthened` counter by 1. -/
theorem evaluate_and_modify_strengthen (eng : ReconsolidationEngine)
    (e : EngramScores) (query : String) (rq pe now : ℚ)
    (w : ReconsolidationWindow)
    (hw : eng.lookupWindow e.id = some w)
    (hopen : w.is_open now = true)
    (hrq : 7/10 < rq) (hpe : pe < 3/10) :
    (ReconsolidationEngine.evaluate_and_modify eng e query rq pe now).2
      = some { quality_score :=
                 some (min 1 (e.quality_score + min (5/100) (rq * (2/100)))),
               consistency_score :=
                 some (min 1 (e.consistency_score + 1/100)) } ∧
    (ReconsolidationEngine.evaluate_and_modify eng e query rq pe now).1.total_strengthened
      = eng.total_strengthened + 1 := by
  unfold ReconsolidationEngine.evaluate_and_modify
  simp only [hw, hopen]
  rw [if_neg (by simp), if_pos ⟨hrq, hpe⟩]
  exact ⟨rfl, rfl⟩

/-- Witness for `evaluate_and_modify_strengthen`: the spec scenario
(quality 0.50, consistency 0.60, `response_quality = 0.9`,
`prediction_error = 0.1`, window opened at 0, evaluated at time 1);
quality becomes 0.518, consistency 0.61, counter goes 0 → 1. -/
theorem evaluate_and_modify_strengthen_witness :
    reconEngine0.lookupWindow reconEngram0.id = some reconWindow0 ∧
    reconWindow0.is_open 1 = true ∧
    (7 : ℚ)/10 < 9/10 ∧ (1 : ℚ)/10 < 3/10 ∧
    ((ReconsolidationEngine.evaluate_and_modify reconEngine0 reconEngram0
        "q" (9/10) (1/10) 1).2
      = some { quality_score :=
                 some (min 1 (reconEngram0.quality_score + min (5/100) ((9:ℚ)/10 * (2/100)))),
               consistency_score :=
                 some (min 1 (reconEngram0.consistency_score + 1/100)) } ∧
     (ReconsolidationEngine.evaluate_and_modify reconEngine0 reconEngram0
        "q" (9/10) (1/10) 1).1.total_strengthened
      = reconEngine0.total_strengthened + 1) :=
  ⟨rfl, by norm_num [ReconsolidationWindow.is_open, reconWindow0],
   by norm_num, by norm_num,
   evaluate_and_modify_strengthen reconEngine0 reconEngram0 "q" (9/10) (1/10) 1
     reconWindow0 rfl
     (by norm_num [ReconsolidationWindow.is_open, reconWindow0])
     (by norm_num) (by norm_num)⟩

/-- C10: while an engram's reconsolidation window is open, every call of
`evaluate_and_modify` with `prediction_error > 0.7` takes the weaken
branch, which sets `quality_score` to
`max(0.1, quality_score − min(0.1, prediction_error·0.05))`; that value
is never below 0.1, and any number of further weaken steps stays at or
above 0.1 — repeated weakening alone never drives `quality_score` below
0.1. -/
theorem evaluate_and_modify_weaken_floor (eng : ReconsolidationEngine)
    (e : EngramScores) (query : String) (rq pe now : ℚ)
    (w : ReconsolidationWindow)
    (hw : eng.lookupWindow e.id = some w)
    (hopen : w.is_open now = true)
    (hpe : 7/10 < pe) :
    (ReconsolidationEngine.evaluate_and_modify eng e query rq pe now).2
      = some { quality_score :=
                 some (ReconsolidationEngine.weakenStep pe e.quality_score),
               decay_score := some (min 1 (e.decay_score + 5/100)) } ∧
    1/10 ≤ ReconsolidationEngine.weakenStep pe e.quality_score ∧
    ∀ (q0 : ℚ) (pes : List ℚ),
      1/10 ≤ pes.foldl (fun q p => ReconsolidationEngine.weakenStep p q)
               (ReconsolidationEngine.weakenStep pe q0) := by
  refine ⟨?_, weakenStep_floor pe e.quality_score,
          fun q0 pes => foldl_weakenStep_floor pes _ (weakenStep_floor pe q0)⟩
  unfold ReconsolidationEngine.evaluate_and_modify
  simp only [hw, hopen]
  rw [if_neg (by simp),
      if_neg (fun h => absurd h.2 (by linarith)),
      if_pos hpe]

/-- Witness for `evaluate_and_modify_weaken_floor`: the same fixture
with `prediction_error = 0.9`; quality drops to
`max(0.1, 0.5 − 0.045) = 0.455` and stays ≥ 0.1 under iteration. -/
theorem evaluate_and_modify_weaken_floor_witness :
    reconEngine0.lookupWindow reconEngram0.id = some reconWindow0 ∧
    reconWindow0.is_open 1 = true ∧
    (7 : ℚ)/10 < 9/10 ∧
    ((ReconsolidationEngine.evaluate_and_modify reconEngine0 reconEngram0
        "q" (1/2) (9/10) 1).2
      = some { quality_score :=
                 some (ReconsolidationEngine.weakenStep (9/10) reconEngram0.quality_score),
               decay_score := some (min 1 (reconEngram0.decay_score + 5/100)) } ∧
     1/10 ≤ ReconsolidationEngine.weakenStep (9/10) reconEngram0.quality_score ∧
     ∀ (q0 : ℚ) (pes : List ℚ),
       1/10 ≤ pes.foldl (fun q p => ReconsolidationEngine.weakenStep p q)
                (ReconsolidationEngine.weakenStep (9/10) q0)) :=
  ⟨rfl, by norm_num [ReconsolidationWindow.is_open, reconWindow0],
   by norm_num,
   evaluate_and_modify_weaken_floor reconEngine0 reconEngram0 "q" (1/2) (9/10) 1
     reconWindow0 rfl
     (by norm_num [ReconsolidationWindow.is_open, reconWindow0])
     (by norm_num)⟩

/-! ## Theorems for the AwakeEngine queue discipline -/

/-- C6: whenever a `_think` step pops an item from a non-empty workload
queue, the queue was sorted descending by
`urgency = quality_score + age_minutes/10` immediately before the pop,
so the popped item has maximal urgency among all queued items, and no
item with strictly smaller urgency than some queued item can be the one
popped. -/
theorem think_pops_max_urgency (now th : ℚ) (q : List QueueItem)
    (p : QueueItem)
    (hp : (AwakeEngine.think now th q).popped = some p) :
    (∀ y ∈ q, AwakeEngine.urgency now y ≤ AwakeEngine.urgency now p) ∧
    (∀ b ∈ q, (∃ a ∈ q, AwakeEngine.urgency now b < AwakeEngine.urgency now a)
      → p ≠ b) := by
  have hmax : ∀ y ∈ q, AwakeEngine.urgency now y ≤ AwakeEngine.urgency now p := by
    unfold AwakeEngine.think at hp
    by_cases hq : q = []
    · rw [if_pos hq] at hp
      simp at hp
    · rw [if_neg hq] at hp
      cases hs : AwakeEngine.sortQueue now q with
      | nil =>
        rw [hs] at hp
        simp at hp
      | cons x rest =>
        rw [hs] at hp
        by_cases hc : x.consistency_score < th
        · simp [hc] at hp
        · simp only [hc, if_false, if_neg hc] at hp
          have hxp : x = p := by
            simpa using hp
          subst hxp
          letI rel : QueueItem → QueueItem → Prop :=
            fun a b => AwakeEngine.urgency now b ≤ AwakeEngine.urgency now a
          haveI : IsTotal QueueItem rel := ⟨fun a b => le_total _ _⟩
          haveI : IsTrans QueueItem rel := ⟨fun _ _ _ hab hbc => le_trans hbc hab⟩
          have hsorted : List.Sorted rel (AwakeEngine.sortQueue now q) :=
            List.sorted_insertionSort rel q
          rw [hs] at hsorted
          intro y hy
          have hy2 : y ∈ AwakeEngine.sortQueue now q :=
            (List.mem_insertionSort rel).mpr hy
          rw [hs] at hy2
          rcases List.mem_cons.mp hy2 with h | h
          · exact h ▸ le_refl _
          · exact (List.sorted_cons.mp hsorted).1 y h
  refine ⟨hmax, fun b _ hab hpb => ?_⟩
  obtain ⟨a, ha, hlt⟩ := hab
  exact absurd (lt_of_lt_of_le hlt (hmax a ha)) (by rw [hpb]; exact lt_irrefl _)

/-- Witness for `think_pops_max_urgency`: at time 3600 the queue holds a
fresh item (quality 0.5, urgency 0.5) and a 60-minute-old item (quality
0.1, urgency 6.1); the old item is popped first. -/
theorem think_pops_max_urgency_witness :
    (AwakeEngine.think 3600 (3/5) [freshItem, agedItem]).popped = some agedItem ∧
    ((∀ y ∈ [freshItem, agedItem],
        AwakeEngine.urgency 3600 y ≤ AwakeEngine.urgency 3600 agedItem) ∧
     (∀ b ∈ [freshItem, agedItem],
        (∃ a ∈ [freshItem, agedItem],
          AwakeEngine.urgency 3600 b < AwakeEngine.urgency 3600 a)
        → agedItem ≠ b)) :=
  ⟨by
      norm_num [AwakeEngine.think, AwakeEngine.sortQueue, AwakeEngine.urgency,
        List.insertionSort, List.orderedInsert, freshItem, agedItem]
      simp,
   think_pops_max_urgency 3600 (3/5) [freshItem, agedItem] agedItem
     (by
       norm_num [AwakeEngine.think, AwakeEngine.sortQueue,
         AwakeEngine.urgency, List.insertionSort, List.orderedInsert,
         freshItem, agedItem]
       simp)⟩

/-! ## Theorems for WorkingMemory -/

/-- `updateFirst` preserves list length. -/
theorem updateFirst_length {α : Type} (p : α → Bool) (f : α → α) :
    ∀ l : List α, (updateFirst p f l).length = l.length
  | [] => rfl
  | x :: xs => by
    unfold updateFirst
    by_cases h : p x
    · simp [h]
    · simp [h, updateFirst_length p f xs]

/-- The Python `min` over `x :: l` is an element of `x :: l`. -/
theorem pyMinBy_mem (f : MemoryItem → ℚ) :
    ∀ (l : List MemoryItem) (x : MemoryItem),
      WorkingMemory.pyMinBy f x l ∈ x :: l
  | [], x => by simp [WorkingMemory.pyMinBy]
  | y :: ys, x => by
    have h := pyMinBy_mem f ys (if f y < f x then y else x)
    unfold WorkingMemory.pyMinBy at h ⊢
    simp only [List.foldl_cons]
    by_cases hc : f y < f x
    · rw [if_pos hc] at h ⊢
      simp only [List.mem_cons] at h ⊢
      tauto
    · rw [if_neg hc] at h ⊢
      simp only [List.mem_cons] at h ⊢
      tauto

/-- The Python `min` over `x :: l` has minimal key. -/
theorem pyMinBy_le (f : MemoryItem → ℚ) :
    ∀ (l : List MemoryItem) (x z : MemoryItem), z ∈ x :: l →
      f (WorkingMemory.pyMinBy f x l) ≤ f z
  | [], x, z, hz => by
    simp only [List.mem_singleton] at hz
    subst hz
    simp [WorkingMemory.pyMinBy]
  | y :: ys, x, z, hz => by
    have hrec := pyMinBy_le f ys (if f y < f x then y else x)
    unfold WorkingMemory.pyMinBy at hrec ⊢
    simp only [List.foldl_cons]
    simp only [List.mem_cons] at hz
    by_cases hc : f y < f x
    · rw [if_pos hc] at hrec ⊢
      rcases hz with rfl | rfl | hz
      · exact le_of_lt (lt_of_le_of_lt
          (hrec y (List.mem_cons_self y ys)) hc)
      · exact hrec z (List.mem_cons_self z ys)
      · exact hrec z (List.mem_cons_of_mem y hz)
    · rw [if_neg hc] at hrec ⊢
      rcases hz with rfl | rfl | hz
      · exact hrec z (List.mem_cons_self z ys)
      · exact le_trans (hrec x (List.mem_cons_self x ys)) (not_lt.mp hc)
      · exact hrec z (List.mem_cons_of_mem x hz)

/-- `insertItem` never changes the capacity. -/
theorem insertItem_capacity (now : ℚ) (wm : WorkingMemory)
    (item : MemoryItem) :
    (WorkingMemory.insertItem now wm item).capacity = wm.capacity := by
  unfold WorkingMemory.insertItem
  split
  · split <;> rfl
  · rfl

/-- `insertItem` keeps the item count within a positive capacity. -/
theorem insertItem_length_le (now : ℚ) (wm : WorkingMemory)
    (item : MemoryItem)
    (hlen : wm.items.length ≤ wm.capacity) :
    (WorkingMemory.insertItem now wm item).items.length ≤ wm.capacity := by
  unfold WorkingMemory.insertItem
  by_cases h : wm.capacity ≤ wm.items.length
  · rw [if_pos h]
    cases hi : wm.items with
    | nil => exact hlen
    | cons x xs =>
      have hmem : WorkingMemory.pyMinBy (MemoryItem.priority now) x xs ∈ x :: xs :=
        pyMinBy_mem _ xs x
      simp only [List.length_append, List.length_erase_of_mem hmem,
        List.length_cons, List.length_nil]
      rw [hi] at hlen
      simp only [List.length_cons] at hlen
      omega
  · rw [if_neg h]
    push_neg at h
    simp only [List.length_append, List.length_singleton]
    omega

/-- One `update` iteration preserves the capacity and keeps the item
count within it. -/
theorem updateOne_inv (now : ℚ) (query : String) (mr : ℚ)
    (acc : WorkingMemory × List MemoryItem) (engram : RetrievedEngram)
    (hlen : acc.1.items.length ≤ acc.1.capacity) :
    (WorkingMemory.updateOne now query mr acc engram).1.capacity
      = acc.1.capacity ∧
    (WorkingMemory.updateOne now query mr acc engram).1.items.length
      ≤ acc.1.capacity := by
  obtain ⟨wm, ni⟩ := acc
  simp only [WorkingMemory.updateOne]
  cases hf : wm.find engram.id with
  | some it =>
    simp only [hf]
    refine ⟨by simp, by simpa [updateFirst_length] using hlen⟩
  | none =>
    simp only [hf]
    split
    · exact ⟨rfl, hlen⟩
    · exact ⟨insertItem_capacity now wm _, insertItem_length_le now wm _ hlen⟩

/-- The `update` loop preserves the capacity bound. -/
theorem update_foldl_inv (now : ℚ) (query : String) (mr : ℚ) :
    ∀ (rs : List RetrievedEngram) (acc : WorkingMemory × List MemoryItem),
      acc.1.items.length ≤ acc.1.capacity →
      (rs.foldl (WorkingMemory.updateOne now query mr) acc).1.capacity
        = acc.1.capacity ∧
      (rs.foldl (WorkingMemory.updateOne now query mr) acc).1.items.length
        ≤ acc.1.capacity
  | [], _, hlen => ⟨rfl, hlen⟩
  | r :: rs, acc, hlen => by
    simp only [List.foldl_cons]
    obtain ⟨hc1, hl1⟩ := updateOne_inv now query mr acc r hlen
    obtain ⟨hc2, hl2⟩ :=
      update_foldl_inv now query mr rs
        (WorkingMemory.updateOne now query mr acc r)
        (by rw [hc1]; exact hl1)
    refine ⟨by rw [hc2, hc1], ?_⟩
    rw [hc1] at hl2
    exact hl2

/-- Every single operation preserves the capacity bound. -/
theorem step_inv (wm : WorkingMemory) (op : WorkingMemory.Op)
    (hlen : wm.items.length ≤ wm.capacity) :
    (wm.step op).capacity = wm.capacity ∧
    (wm.step op).items.length ≤ wm.capacity := by
  cases op with
  | update now q mr rs =>
    exact update_foldl_inv now q mr rs (wm, []) hlen
  | prime now eid =>
    refine ⟨rfl, ?_⟩
    simp only [WorkingMemory.step, WorkingMemory.prime]
    simpa [updateFirst_length] using hlen
  | clear =>
    exact ⟨rfl, by simp [WorkingMemory.step, WorkingMemory.clear]⟩

/-- Every operation sequence preserves the capacity bound. -/
theorem run_inv : ∀ (ops : List WorkingMemory.Op) (wm : WorkingMemory),
    wm.items.length ≤ wm.capacity →
    (wm.run ops).capacity = wm.capacity ∧
    (wm.run ops).items.length ≤ wm.capacity
  | [], _, h => ⟨rfl, h⟩
  | op :: ops, wm, h => by
    obtain ⟨hc1, hl1⟩ := step_inv wm op h
    obtain ⟨hc2, hl2⟩ := run_inv ops (wm.step op) (by rw [hc1]; exact hl1)
    unfold WorkingMemory.run
    simp only [List.foldl_cons]
    unfold WorkingMemory.run at hc2 hl2
    refine ⟨by rw [hc2, hc1], ?_⟩
    rw [hc1] at hl2
    exact hl2

/-- C8: starting from an empty buffer of positive capacity, no sequence
of `WorkingMemory` operations ever makes the item count exceed the
capacity; and whenever the buffer is exactly at capacity, inserting a
qualifying new item evicts exactly one item, namely one of minimal
priority (the first such, per Python `min`), appending the new item. -/
theorem workingMemory_capacity_invariant (cap : Nat) (hcap : 1 ≤ cap) :
    (∀ ops : List WorkingMemory.Op,
        ((WorkingMemory.emptyWM cap).run ops).items.length ≤ cap) ∧
    (∀ (now : ℚ) (item : MemoryItem) (wm : WorkingMemory),
        wm.capacity = cap → wm.items.length = cap →
        ∃ lowest, lowest ∈ wm.items ∧
          (∀ y ∈ wm.items,
            MemoryItem.priority now lowest ≤ MemoryItem.priority now y) ∧
          (WorkingMemory.insertItem now wm item).items
            = (wm.items.erase lowest) ++ [item] ∧
          (WorkingMemory.insertItem now wm item).items.length = cap) := by
  constructor
  · intro ops
    have h := run_inv ops (WorkingMemory.emptyWM cap)
      (by simp [WorkingMemory.emptyWM])
    simpa [WorkingMemory.emptyWM] using h.2
  · intro now item wm hc hl
    cases hi : wm.items with
    | nil =>
      rw [hi] at hl
      simp at hl
      omega
    | cons x xs =>
      refine ⟨WorkingMemory.pyMinBy (MemoryItem.priority now) x xs,
        ?_, ?_, ?_, ?_⟩
      · exact pyMinBy_mem _ xs x
      · intro y hy
        exact pyMinBy_le _ xs x y hy
      · unfold WorkingMemory.insertItem
        rw [if_pos (by rw [hc, hl]), hi]
      · unfold WorkingMemory.insertItem
        rw [if_pos (by rw [hc, hl]), hi]
        have hmem := pyMinBy_mem (MemoryItem.priority now) xs x
        simp only [List.length_append, List.length_erase_of_mem hmem,
          List.length_cons, List.length_nil]
        rw [hi] at hl
        simp only [List.length_cons] at hl
        omega

/-- Witness for `workingMemory_capacity_invariant` at capacity 1. -/
theorem workingMemory_capacity_invariant_witness :
    1 ≤ 1 ∧
    ((∀ ops : List WorkingMemory.Op,
        ((WorkingMemory.emptyWM 1).run ops).items.length ≤ 1) ∧
     (∀ (now : ℚ) (item : MemoryItem) (wm : WorkingMemory),
        wm.capacity = 1 → wm.items.length = 1 →
        ∃ lowest, lowest ∈ wm.items ∧
          (∀ y ∈ wm.items,
            MemoryItem.priority now lowest ≤ MemoryItem.priority now y) ∧
          (WorkingMemory.insertItem now wm item).items
            = (wm.items.erase lowest) ++ [item] ∧
          (WorkingMemory.insertItem now wm item).items.length = 1)) :=
  ⟨le_refl 1, workingMemory_capacity_invariant 1 (le_refl 1)⟩

/-- C9: concrete evaluation of `update` on an engram already present.
The buffer holds an item for `e1` with relevance 0.2; `e1` is retrieved
again with raw rerank score 3.  The source sets
`relevance = max(0.2, 3) = 3` — the RAW rerank score, escaping the
documented [0, 1] range — whereas the claimed update
`max(0.2, clamp((3+5)/10, 0, 1)) = 0.8`.  The access count is bumped to
2 and no new item is inserted. -/
theorem update_existing_uses_raw_rerank :
    ((WorkingMemory.update 0 "q1" (3/10) wmBuffer0 [retrievedAgain]).1.items.map
        (fun it => it.relevance) = [3]) ∧
    ((WorkingMemory.update 0 "q1" (3/10) wmBuffer0 [retrievedAgain]).1.items.map
        (fun it => it.access_count) = [2]) ∧
    ((WorkingMemory.update 0 "q1" (3/10) wmBuffer0 [retrievedAgain]).2 = []) ∧
    ¬ ((3 : ℚ) ≤ 1) ∧
    max (1/5 : ℚ) (max 0 (min 1 ((3 + 5) / 10))) = 4/5 := by
  refine ⟨?_, ?_, ?_, by norm_num, by norm_num [max_def, min_def]⟩ <;>
    norm_num [WorkingMemory.update, WorkingMemory.updateOne,
      WorkingMemory.find, updateFirst, wmBuffer0, wmExistingItem,
      retrievedAgain, max_def, min_def]

/-- Witness for `run_auction_reset_then_ubi` at a concrete two-agent
market ticked at time 1. -/
theorem run_auction_reset_then_ubi_witness :
    (∀ p ∈ InternalMarket.ephemeralReset marketTwoAgents.wallets, p.2 = 0) ∧
    (∀ p ∈ InternalMarket.ubiGrant
        (InternalMarket.ephemeralReset marketTwoAgents.wallets)
        ((marketTwoAgents.drive.mint_currency (1 - marketTwoAgents.last_tick)).2),
      p.2 = (marketTwoAgents.drive.mint_currency (1 - marketTwoAgents.last_tick)).2
              / (marketTwoAgents.wallets.length : ℚ)) :=
  run_auction_reset_then_ubi marketTwoAgents 1
